import Mathlib

/-!
Verification of the `zipsvr` service (src/zipsvr/main.go).

Shallow embedding of the program's core:
* the `zip` record type (`main.go:29-33`) and the slice/index aliases
  (`main.go:36-39`);
* `loadZipsFromCSV` (`main.go:44-92`), modelled over a dataset that is already
  split into rows of fields (the character-level CSV lexing of `encoding/csv`
  is abstracted away; what is kept is the semantics the program depends on:
  the header read, the reader's uniform-field-count check that `csv.Reader`
  applies from the first record onward, `io.EOF` handling, and the positional
  indexing `record[0]`, `record[3]`, `record[6]`, which in Go panics when the
  index is out of range);
* `loadZipsFromJSON` (`main.go:95-116`), modelled over the outcome of the
  stdlib decode step (`json.Decoder.Decode`), which on an empty stream
  reports `EOF` as an error;
* the index-construction loop of `main` (`main.go:200-204`), as `buildIndex`,
  with the Go map modelled as an association list (`mapGet`/`mapSet`);
* `path.Split` (used at `main.go:155`) as `goPathSplit`;
* `zipsForCityHandler` (`main.go:153-165`), producing a pure `GoResponse`.
  On the success path Go writes an implicit 200 status; `encoding/json`
  serializes a nil slice (the map's zero value for an absent key) as the JSON
  literal `null`, and `json.Encoder.Encode` terminates the value with a
  newline.  Serialization of plain string-field structs cannot fail, so the
  `http.Error` branch (`main.go:163`) is unreachable absent a transport write
  failure, which is I/O outside this model.
-/

/-- The `zip` struct (`main.go:29-33`): three string fields. -/
structure zip where
  Zip : String
  City : String
  State : String
deriving DecidableEq, Repr

/-- `zipSlice` (`main.go:36`): an ordered sequence of zip records. -/
abbrev zipSlice := List zip

/-- `zipIndex` (`main.go:39`): the Go `map[string]zipSlice`, modelled as an
association list with at most one entry per key. -/
abbrev zipIndex := List (String × zipSlice)

/-- Model of Go `strings.ToLower` (ASCII case mapping; the datasets and claims
involve ASCII city names only). -/
def stringsToLower (s : String) : String := String.mk (s.data.map Char.toLower)

/-- Go map read `zi[k]`, presence-aware: `none` models the key being absent
(in Go the read then yields the zero value `nil`). -/
def mapGet : zipIndex → String → Option zipSlice
  | [], _ => none
  | (k, v) :: rest, key => if k = key then some v else mapGet rest key

/-- Go map write `zi[k] = v`: replace the entry if the key is present,
otherwise add it. -/
def mapSet : zipIndex → String → zipSlice → zipIndex
  | [], key, v => [(key, v)]
  | (k, w) :: rest, key, v =>
    if k = key then (k, v) :: rest else (k, w) :: mapSet rest key v

/-- The group stored at a key, as the Go expression `zi[k]` evaluates inside
`append`: the stored slice, or `nil` (here `[]`) when the key is absent. -/
def groupAt (zi : zipIndex) (k : String) : zipSlice := (mapGet zi k).getD []

/-- The index-construction loop of `main` (`main.go:200-204`):
for each record in load order, `lower := strings.ToLower(z.City)`;
`zi[lower] = append(zi[lower], z)`. -/
def buildIndex (zips : zipSlice) : zipIndex :=
  zips.foldl
    (fun zi z =>
      let lower := stringsToLower z.City
      mapSet zi lower (groupAt zi lower ++ [z]))
    []

/-- Outcome of `loadZipsFromCSV`: a returned slice, a returned Go `error`, or
a runtime panic (out-of-range slice index), which in Go crashes the process
rather than returning. -/
inductive CsvLoad where
  | ok (zips : zipSlice)
  | err (msg : String)
  | crash (msg : String)
deriving DecidableEq, Repr

/-- Construction of one record from a row (`main.go:83-87`): positions 0, 3
and 6.  `loadLoop` guards these accesses with the 7-field bound, under which
`getD` coincides with Go's (panicking) indexing. -/
def extractZip (record : List String) : zip :=
  { Zip := record.getD 0 "", City := record.getD 3 "", State := record.getD 6 "" }

/-- The record-reading loop of `loadZipsFromCSV` (`main.go:68-91`).
`expected` is the field count fixed by the first `Read` (the header):
`csv.Reader` reports `ErrFieldCount` for any later record whose field count
differs.  A record that passes that check is indexed at positions 0, 3 and 6;
if it has fewer than 7 fields this indexing panics.  Reaching the end of the
row list models `io.EOF`, returning the slice read so far (`main.go:73-75`). -/
def loadLoop (expected : Nat) (acc : zipSlice) : List (List String) → CsvLoad
  | [] => CsvLoad.ok acc
  | record :: rest =>
    if record.length = expected then
      if 7 ≤ record.length then
        loadLoop expected (acc ++ [extractZip record]) rest
      else CsvLoad.crash "runtime error: index out of range"
    else CsvLoad.err "error loading zips from CSV: wrong number of fields"

/-- `loadZipsFromCSV` (`main.go:44-92`) over the parsed rows of the dataset.
The first record is read and discarded as the header (`main.go:56-59`); if the
stream is empty that read returns `io.EOF`, which the function reports as an
error.  The header's field count becomes the reader's expected count. -/
def loadZipsFromCSV : List (List String) → CsvLoad
  | [] => CsvLoad.err "error reading CSV field names: EOF"
  | header :: rest => loadLoop header.length [] rest

/-- `loadZipsFromJSON` (`main.go:95-116`), over the outcome of the stdlib
decode of the whole stream (`json.Decoder.Decode`, `main.go:112`): any decode
failure is wrapped and returned; a successful decode returns the slice. -/
def loadZipsFromJSON (decoded : Except String zipSlice) : Except String zipSlice :=
  match decoded with
  | Except.error e => Except.error ("error decoding zips from json: " ++ e)
  | Except.ok zips => Except.ok zips

/-- Stdlib fact modelled for `loadZipsFromJSON`: `json.Decoder.Decode` on a
stream holding no JSON value reports `io.EOF` as its error. -/
def emptyStreamDecode : Except String zipSlice := Except.error "EOF"

/-- Model of Go `path.Split` (used at `main.go:155`): split after the final
slash, returning (directory-with-slash, file).  With no slash the directory
is empty and the file is the whole path. -/
def goPathSplit (p : String) : String × String :=
  (String.mk ((p.data.reverse.dropWhile (fun c => c != '/')).reverse),
   String.mk ((p.data.reverse.takeWhile (fun c => c != '/')).reverse))

/-- An HTTP request as the handler consumes it: the handler reads only
`r.URL.Path`; the method is carried but never inspected. -/
structure Request where
  method : String
  urlPath : String
deriving DecidableEq, Repr

/-- The response the handler produces: status, headers in the order they are
added, and the body bytes. -/
structure GoResponse where
  status : Nat
  headers : List (String × String)
  body : String
deriving DecidableEq, Repr

/-- JSON string escaping for the two characters that can occur in record
fields and need escaping (`"` and `\`); `encoding/json` escapes more
(control characters, HTML characters) but the datasets' fields contain
neither. -/
def jsonEscape (s : String) : String :=
  String.mk (s.data.foldr
    (fun c acc =>
      if c = '"' then '\\' :: '"' :: acc
      else if c = '\\' then '\\' :: '\\' :: acc
      else c :: acc) [])

/-- JSON object for one record, with the struct tags of `main.go:30-32`:
keys `zip`, `city`, `state`. -/
def encodeZip (z : zip) : String :=
  "\x7b\"zip\":\"" ++ jsonEscape z.Zip ++ "\",\"city\":\"" ++ jsonEscape z.City ++
    "\",\"state\":\"" ++ jsonEscape z.State ++ "\"\x7d"

/-- JSON array for a non-nil slice of records. -/
def encodeZipList (zips : zipSlice) : String :=
  "[" ++ String.intercalate "," (zips.map encodeZip) ++ "]"

/-- The body `json.Encoder.Encode(zi[lcity])` writes (`main.go:161-162`):
an absent key yields the nil slice, which `encoding/json` serializes as the
JSON literal `null`; a stored group serializes as a JSON array.  `Encode`
appends a newline after the value. -/
def encodeLookup (found : Option zipSlice) : String :=
  match found with
  | none => "null\n"
  | some zips => encodeZipList zips ++ "\n"

/-- The handler body after the city argument has been extracted
(`main.go:156-164`): lower-case the argument, add the two headers, encode
the group found at the key.  The implicit Go status on this path is 200. -/
def respondForCity (zi : zipIndex) (city : String) : GoResponse :=
  let lcity := stringsToLower city
  { status := 200
    headers := [("Content-Type", "application/json; charset=utf-8"),
                ("Access-Control-Allow-Origin", "*")]
    body := encodeLookup (mapGet zi lcity) }

/-- `zipsForCityHandler` (`main.go:153-165`): take the trailing path segment
via `path.Split`, then respond for that city.  `r.Method` is never read. -/
def zipsForCityHandler (zi : zipIndex) (r : Request) : GoResponse :=
  respondForCity zi (goPathSplit r.urlPath).2

/-- Records of the spec's end-to-end example (spec section 8). -/
def zSea1 : zip := { Zip := "98101", City := "Seattle", State := "WA" }

def zSea2 : zip := { Zip := "98102", City := "Seattle", State := "WA" }

def zNyc : zip := { Zip := "10001", City := "New York", State := "NY" }

def demoZips : zipSlice := [zSea1, zSea2, zNyc]

def demoIndex : zipIndex := buildIndex demoZips

example : groupAt demoIndex "seattle" = [zSea1, zSea2] := by decide

example : groupAt demoIndex "new york" = [zNyc] := by decide

example : mapGet demoIndex "atlantis" = none := by decide

example :
    loadZipsFromCSV
      [["zip", "a", "b", "city", "c", "d", "state"],
       ["98101", "x", "x", "Seattle", "x", "x", "WA"]] =
    CsvLoad.ok [zSea1] := by decide

example : loadZipsFromCSV [] = CsvLoad.err "error reading CSV field names: EOF" := rfl

example : loadZipsFromCSV [["a", "b"], ["c", "d"]] =
    CsvLoad.crash "runtime error: index out of range" := by decide

example : goPathSplit "/zips/city/seattle" = ("/zips/city/", "seattle") := by decide

example :
    (zipsForCityHandler demoIndex { method := "GET", urlPath := "/zips/city/atlantis" }).body =
      "null\n" := by decide

/-! Helper lemmas shared by the claim theorems. -/

theorem mapGet_mapSet (zi : zipIndex) (key k : String) (v : zipSlice) :
    mapGet (mapSet zi key v) k = if key = k then some v else mapGet zi k := by
  induction zi with
  | nil =>
    by_cases h : key = k <;> simp [mapSet, mapGet, h]
  | cons e rest ih =>
    obtain ⟨ek, ev⟩ := e
    by_cases he : ek = key
    · subst he
      by_cases h : ek = k <;> simp [mapSet, mapGet, h]
    · by_cases h : ek = k
      · subst h
        have hk : ¬ key = ek := fun hh => he hh.symm
        simp [mapSet, mapGet, he, hk]
      · simp [mapSet, mapGet, he, h, ih]

theorem groupAt_buildLoop (zips : zipSlice) (zi : zipIndex) (k : String) :
    groupAt
      (zips.foldl
        (fun zi z =>
          let lower := stringsToLower z.City
          mapSet zi lower (groupAt zi lower ++ [z])) zi) k =
      groupAt zi k ++ zips.filter (fun z => stringsToLower z.City == k) := by
  induction zips generalizing zi with
  | nil => simp
  | cons z rest ih =>
    rw [List.foldl_cons, ih]
    by_cases h : stringsToLower z.City = k
    · simp [groupAt, mapGet_mapSet, h, List.filter_cons]
    · have hb : (stringsToLower z.City == k) = false := by
        simpa using h
      simp [groupAt, mapGet_mapSet, h, List.filter_cons, hb]

theorem groupAt_buildIndex (zips : zipSlice) (k : String) :
    groupAt (buildIndex zips) k = zips.filter (fun z => stringsToLower z.City == k) := by
  have h := groupAt_buildLoop zips [] k
  simpa [buildIndex, groupAt, mapGet] using h

theorem loadLoop_ok (body : List (List String)) (expected : Nat) (acc : zipSlice)
    (h7 : 7 ≤ expected) (hlen : ∀ r ∈ body, r.length = expected) :
    loadLoop expected acc body = CsvLoad.ok (acc ++ body.map extractZip) := by
  induction body generalizing acc with
  | nil => simp [loadLoop]
  | cons record rest ih =>
    have hrec : record.length = expected := hlen record (by simp)
    have hrest : ∀ r ∈ rest, r.length = expected := fun r hr => hlen r (by simp [hr])
    have h7r : 7 ≤ record.length := hrec ▸ h7
    simp [loadLoop, hrec, h7r, h7, ih (acc ++ [extractZip record]) hrest]

theorem loadLoop_err (body : List (List String)) (expected : Nat) (acc : zipSlice)
    (h7 : 7 ≤ expected) (hbad : ∃ r ∈ body, r.length < 7) :
    loadLoop expected acc body =
      CsvLoad.err "error loading zips from CSV: wrong number of fields" := by
  induction body generalizing acc with
  | nil => simp at hbad
  | cons record rest ih =>
    by_cases hrec : record.length = expected
    · have h7r : 7 ≤ record.length := hrec ▸ h7
      have hbad' : ∃ r ∈ rest, r.length < 7 := by
        obtain ⟨r, hr, hlt⟩ := hbad
        rcases List.mem_cons.mp hr with hhead | htail
        · exact absurd (hhead ▸ hlt) (by omega)
        · exact ⟨r, htail, hlt⟩
      simp [loadLoop, hrec, h7r, h7, ih (acc ++ [extractZip record]) hbad']
    · simp [loadLoop, hrec]

theorem takeWhile_append_of_all {α : Type} (p : α → Bool) (l1 l2 : List α)
    (h : ∀ a ∈ l1, p a = true) :
    (l1 ++ l2).takeWhile p = l1 ++ l2.takeWhile p := by
  induction l1 with
  | nil => simp
  | cons a rest ih =>
    have ha : p a = true := h a (by simp)
    have hrest : ∀ a ∈ rest, p a = true := fun a hr => h a (by simp [hr])
    simp [List.takeWhile_cons, ha, ih hrest]

theorem dropWhile_append_of_all {α : Type} (p : α → Bool) (l1 l2 : List α)
    (h : ∀ a ∈ l1, p a = true) :
    (l1 ++ l2).dropWhile p = l2.dropWhile p := by
  induction l1 with
  | nil => simp
  | cons a rest ih =>
    have ha : p a = true := h a (by simp)
    have hrest : ∀ a ∈ rest, p a = true := fun a hr => h a (by simp [hr])
    simp [List.dropWhile_cons, ha, ih hrest]

theorem goPathSplit_registered (s : String) (h : ∀ c ∈ s.data, c ≠ '/') :
    goPathSplit ("/zips/city/" ++ s) = ("/zips/city/", s) := by
  have hdata : ("/zips/city/" ++ s).data = "/zips/city/".data ++ s.data := rfl
  have hrev : ("/zips/city/").data.reverse = '/' :: "ytic/spiz/".data := by decide
  have hall : ∀ c ∈ s.data.reverse, (c != '/') = true := by
    intro c hc
    simpa using h c (List.mem_reverse.mp hc)
  have htake :
      (("/zips/city/" ++ s).data.reverse.takeWhile (fun c => c != '/')) = s.data.reverse := by
    rw [hdata, List.reverse_append, hrev,
      takeWhile_append_of_all (fun c => c != '/') s.data.reverse _ hall]
    simp [List.takeWhile_cons]
  have hdrop :
      (("/zips/city/" ++ s).data.reverse.dropWhile (fun c => c != '/')) =
        '/' :: "ytic/spiz/".data := by
    rw [hdata, List.reverse_append, hrev,
      dropWhile_append_of_all (fun c => c != '/') s.data.reverse _ hall]
    simp [List.dropWhile_cons]
  unfold goPathSplit
  rw [htake, hdrop, List.reverse_reverse]
  constructor

/-! Claim theorems. -/

/-- C1: after index construction from a loaded record sequence, the group at
any key `k` is exactly the subsequence of input records whose lower-cased
`City` equals `k` — so every record appears in exactly one group (the one
keyed by the lower-cased form of its `City`), in input order (filtering
preserves the input's relative order). -/
theorem claim_C1_index_grouping (zips : zipSlice) (k : String) :
    groupAt (buildIndex zips) k =
      zips.filter (fun z => stringsToLower z.City == k) ∧
    ∀ z ∈ zips, z ∈ groupAt (buildIndex zips) (stringsToLower z.City) := by
  refine ⟨groupAt_buildIndex zips k, fun z hz => ?_⟩
  rw [groupAt_buildIndex]
  exact List.mem_filter.mpr ⟨hz, by simp⟩

theorem claim_C1_witness :
    groupAt (buildIndex demoZips) "seattle" =
      demoZips.filter (fun z => stringsToLower z.City == "seattle") ∧
    ∀ z ∈ demoZips, z ∈ groupAt (buildIndex demoZips) (stringsToLower z.City) :=
  claim_C1_index_grouping demoZips "seattle"

/-- C2: for every valid delimited-text dataset (a header row and data rows of
the same field count, at least 7), the load succeeds with one record per data
row — `extractZip` takes position 0 as the code, position 3 as the city and
position 6 as the region of that row — and the returned length is the row
count minus one (the header is discarded unconditionally). -/
theorem claim_C2_csv_load (header : List String) (body : List (List String))
    (h7 : 7 ≤ header.length) (hlen : ∀ r ∈ body, r.length = header.length) :
    loadZipsFromCSV (header :: body) = CsvLoad.ok (body.map extractZip) ∧
    (body.map extractZip).length = (header :: body).length - 1 := by
  constructor
  · show loadLoop header.length [] body = _
    rw [loadLoop_ok body header.length [] h7 hlen]
    simp
  · simp

theorem claim_C2_witness :
    7 ≤ (["zip", "a", "b", "city", "c", "d", "state"] : List String).length ∧
    loadZipsFromCSV
        [["zip", "a", "b", "city", "c", "d", "state"],
         ["98101", "x", "x", "Seattle", "x", "x", "WA"],
         ["10001", "x", "x", "New York", "x", "x", "NY"]] =
      CsvLoad.ok [zSea1, zNyc] ∧
    ([["98101", "x", "x", "Seattle", "x", "x", "WA"],
      ["10001", "x", "x", "New York", "x", "x", "NY"]].map extractZip).length = 3 - 1 := by
  have h := claim_C2_csv_load ["zip", "a", "b", "city", "c", "d", "state"]
    [["98101", "x", "x", "Seattle", "x", "x", "WA"],
     ["10001", "x", "x", "New York", "x", "x", "NY"]]
    (by decide) (by decide)
  refine ⟨by decide, ?_, h.2⟩
  rw [h.1]
  decide

/-- C3: lookup is case-insensitive — two requests whose trailing path
segments are equal up to letter case (same lower-cased form) produce
identical responses, because the handler lower-cases the argument exactly as
the index builder lower-cases keys. -/
theorem claim_C3_case_insensitive (zi : zipIndex) (m1 m2 s1 s2 : String)
    (hs1 : ∀ c ∈ s1.data, c ≠ '/') (hs2 : ∀ c ∈ s2.data, c ≠ '/')
    (hcase : stringsToLower s1 = stringsToLower s2) :
    zipsForCityHandler zi { method := m1, urlPath := "/zips/city/" ++ s1 } =
      zipsForCityHandler zi { method := m2, urlPath := "/zips/city/" ++ s2 } := by
  show respondForCity zi (goPathSplit ("/zips/city/" ++ s1)).2 =
    respondForCity zi (goPathSplit ("/zips/city/" ++ s2)).2
  rw [goPathSplit_registered s1 hs1, goPathSplit_registered s2 hs2]
  unfold respondForCity
  rw [hcase]

theorem claim_C3_witness :
    stringsToLower "Seattle" = stringsToLower "SEATTLE" ∧
    zipsForCityHandler demoIndex { method := "GET", urlPath := "/zips/city/Seattle" } =
      zipsForCityHandler demoIndex { method := "GET", urlPath := "/zips/city/SEATTLE" } :=
  ⟨by decide,
   claim_C3_case_insensitive demoIndex "GET" "GET" "Seattle" "SEATTLE"
     (by decide) (by decide) (by decide)⟩

/-- C4, counterexample to the claim as stated: looking up a city absent from
the index does return status 200, but the body is the JSON literal `null`
(plus `Encode`'s trailing newline) — Go's `encoding/json` serialization of
the nil slice a map read yields for an absent key — not the serialized empty
sequence `[]`. -/
theorem claim_C4_counterexample :
    (zipsForCityHandler demoIndex { method := "GET", urlPath := "/zips/city/atlantis" }).status
        = 200 ∧
    (zipsForCityHandler demoIndex { method := "GET", urlPath := "/zips/city/atlantis" }).body
        = "null\n" ∧
    (zipsForCityHandler demoIndex { method := "GET", urlPath := "/zips/city/atlantis" }).body
        ≠ "[]" ∧
    (zipsForCityHandler demoIndex { method := "GET", urlPath := "/zips/city/atlantis" }).body
        ≠ "[]\n" := by decide

/-- C4, amended: for every city key with no matching group in the index, the
lookup returns a success response (status 200, the implicit status of the
write path) whose body is the JSON literal `null` followed by a newline —
the serialization of the nil group — not an error status. -/
theorem claim_C4_absent_city (zi : zipIndex) (r : Request)
    (h : mapGet zi (stringsToLower (goPathSplit r.urlPath).2) = none) :
    (zipsForCityHandler zi r).status = 200 ∧
    (zipsForCityHandler zi r).body = "null\n" := by
  simp [zipsForCityHandler, respondForCity, encodeLookup, h]

theorem claim_C4_witness :
    mapGet demoIndex
        (stringsToLower (goPathSplit
          (Request.urlPath { method := "GET", urlPath := "/zips/city/atlantis" })).2) = none ∧
    (zipsForCityHandler demoIndex { method := "GET", urlPath := "/zips/city/atlantis" }).status
        = 200 ∧
    (zipsForCityHandler demoIndex { method := "GET", urlPath := "/zips/city/atlantis" }).body
        = "null\n" :=
  ⟨by decide,
   claim_C4_absent_city demoIndex { method := "GET", urlPath := "/zips/city/atlantis" }
     (by decide)⟩

/-- C5, counterexample to the claim as stated: a dataset whose header row
also has fewer than 7 fields defeats the reader's field-count check (the
expected count is taken from the header), so a matching-width malformed data
row reaches the positional indexing and the process panics (index out of
range) instead of the load failing with a returned parse error. -/
theorem claim_C5_counterexample :
    loadZipsFromCSV [["a", "b"], ["c", "d"]] =
      CsvLoad.crash "runtime error: index out of range" := by decide

/-- C5, amended: provided the header row has at least 7 fields, every
dataset containing a malformed data row (fewer than 7 fields) fails the
entire load with a returned parse error (the csv reader's field-count
mismatch) and no record sequence — no partial or best-effort result. -/
theorem claim_C5_malformed_row (header : List String) (body : List (List String))
    (h7 : 7 ≤ header.length) (hbad : ∃ r ∈ body, r.length < 7) :
    loadZipsFromCSV (header :: body) =
      CsvLoad.err "error loading zips from CSV: wrong number of fields" := by
  show loadLoop header.length [] body = _
  exact loadLoop_err body header.length [] h7 hbad

theorem claim_C5_witness :
    7 ≤ (["zip", "a", "b", "city", "c", "d", "state"] : List String).length ∧
    loadZipsFromCSV [["zip", "a", "b", "city", "c", "d", "state"], ["x", "y"]] =
      CsvLoad.err "error loading zips from CSV: wrong number of fields" :=
  ⟨by decide,
   claim_C5_malformed_row ["zip", "a", "b", "city", "c", "d", "state"] [["x", "y"]]
     (by decide) ⟨["x", "y"], by decide, by decide⟩⟩

/-- C6, counterexample to the claim as stated: a stream with no data at all
is an error for both formats, not success — the delimited-text loader fails
at the header read (`io.EOF` there is reported as an error, `main.go:56-59`)
and the structured-text loader reports the decoder's `EOF` as an error
(`main.go:112-114`). -/
theorem claim_C6_counterexample :
    loadZipsFromCSV [] = CsvLoad.err "error reading CSV field names: EOF" ∧
    loadZipsFromJSON emptyStreamDecode =
      Except.error "error decoding zips from json: EOF" :=
  ⟨rfl, rfl⟩

/-- C6, amended: end-of-stream during record reading is success — a
delimited-text dataset that ends right after its header row loads as the
empty record sequence (and with C2, any valid dataset returns the records
read when EOF is reached), and a successfully decoded structured-text stream
loads as its decoded sequence; but a completely empty stream is a load error
for either format. -/
theorem claim_C6_eof (header : List String) (zips : zipSlice) :
    loadZipsFromCSV [header] = CsvLoad.ok [] ∧
    loadZipsFromJSON (Except.ok zips) = Except.ok zips :=
  ⟨rfl, rfl⟩

/-- C7: index construction is deterministic and idempotent — any two indexes
built from the same loaded record sequence are equal, and in particular
agree, key by key, on presence, membership and per-key record order. -/
theorem claim_C7_deterministic (zips : zipSlice) (zi1 zi2 : zipIndex) (k : String)
    (h1 : zi1 = buildIndex zips) (h2 : zi2 = buildIndex zips) :
    zi1 = zi2 ∧ mapGet zi1 k = mapGet zi2 k ∧ groupAt zi1 k = groupAt zi2 k := by
  subst h1; subst h2; exact ⟨rfl, rfl, rfl⟩

theorem claim_C7_witness :
    demoIndex = buildIndex demoZips ∧
    mapGet demoIndex "seattle" = mapGet (buildIndex demoZips) "seattle" ∧
    groupAt demoIndex "seattle" = groupAt (buildIndex demoZips) "seattle" :=
  claim_C7_deterministic demoZips demoIndex (buildIndex demoZips) "seattle" rfl rfl

/-- C8: every response the city-lookup handler produces — for any index and
any request, so in particular for absent cities and empty results — carries
the headers `Content-Type: application/json; charset=utf-8` and
`Access-Control-Allow-Origin: *`, added unconditionally before encoding. -/
theorem claim_C8_headers (zi : zipIndex) (r : Request) :
    ("Content-Type", "application/json; charset=utf-8")
        ∈ (zipsForCityHandler zi r).headers ∧
    ("Access-Control-Allow-Origin", "*") ∈ (zipsForCityHandler zi r).headers := by
  constructor <;> simp [zipsForCityHandler, respondForCity]

/-- C9: the raw city argument the handler looks up is exactly the trailing
path segment after the registered prefix `/zips/city/` — `path.Split` keeps
it verbatim, so no percent-escape decoding is applied beyond whatever the
transport layer already did (the witness uses the undecoded `new%20york`). -/
theorem claim_C9_path_argument (zi : zipIndex) (m s : String)
    (h : ∀ c ∈ s.data, c ≠ '/') :
    (goPathSplit ("/zips/city/" ++ s)).2 = s ∧
    zipsForCityHandler zi { method := m, urlPath := "/zips/city/" ++ s } =
      respondForCity zi s := by
  have hs := goPathSplit_registered s h
  constructor
  · rw [hs]
  · show respondForCity zi (goPathSplit ("/zips/city/" ++ s)).2 = respondForCity zi s
    rw [hs]

theorem claim_C9_witness :
    (goPathSplit ("/zips/city/" ++ "new%20york")).2 = "new%20york" ∧
    zipsForCityHandler demoIndex
        { method := "GET", urlPath := "/zips/city/" ++ "new%20york" } =
      respondForCity demoIndex "new%20york" :=
  claim_C9_path_argument demoIndex "GET" "new%20york" (by decide)

/-- C10: the handler's response is independent of the HTTP request method —
the handler never reads `r.Method`, so two requests for the same path over
the same index receive identical responses whatever their methods. -/
theorem claim_C10_method_blind (zi : zipIndex) (r1 r2 : Request)
    (h : r1.urlPath = r2.urlPath) :
    zipsForCityHandler zi r1 = zipsForCityHandler zi r2 := by
  simp [zipsForCityHandler, h]

theorem claim_C10_witness :
    Request.urlPath { method := "GET", urlPath := "/zips/city/seattle" } =
      Request.urlPath { method := "POST", urlPath := "/zips/city/seattle" } ∧
    zipsForCityHandler demoIndex { method := "GET", urlPath := "/zips/city/seattle" } =
      zipsForCityHandler demoIndex { method := "POST", urlPath := "/zips/city/seattle" } :=
  ⟨rfl,
   claim_C10_method_blind demoIndex
     { method := "GET", urlPath := "/zips/city/seattle" }
     { method := "POST", urlPath := "/zips/city/seattle" } rfl⟩
